import Mathlib

/-!
# go_CRD: a user resource over a document store

Verification development for the three HTTP handlers of
`controllers/user.go` (`GetUser`, `CreateUser`, `DeleteUser`) and the
connection bootstrap of `main.go` (`main`, `getMongoClient`).

The handlers are embedded as pure functions from the request and the
collection to an `Outcome`: the HTTP response handed to the response writer,
the collection afterwards, the database calls issued and the server-side log
lines.  Library functions the handlers call (`primitive.ObjectIDFromHex`,
`ObjectID.Hex`, `primitive.NewObjectID`, `http.Error`, the collection
operations of the MongoDB driver) are embedded after their library
definitions.
-/

deriving instance DecidableEq for Except

namespace GoCRD

/-! ## Identifiers: `primitive.ObjectID` -/

/-- One octet. -/
abbrev Byte := Fin 256

/-- Bytes of a Go string: Go strings are byte sequences and `len` counts
bytes, so a string is viewed through its UTF-8 encoding. -/
def goBytes (s : String) : List Nat :=
  s.data.flatMap (fun c => (String.utf8EncodeChar c).map UInt8.toNat)

/-- Go `type ObjectID [12]byte`. -/
structure ObjectID where
  bytes : List Byte
  size_eq : bytes.length = 12
deriving DecidableEq

/-- Array `[12]byte` after the bytes of `l` were written from index 0 into a
zeroed array (Go `var oid [12]byte` then writes `oid[i]`). -/
def ObjectID.ofBytes (l : List Byte) : ObjectID :=
  ⟨(l ++ List.replicate 12 (0 : Byte)).take 12, by simp⟩

/-- Driver constant `NilObjectID`, the zero value. -/
def NilObjectID : ObjectID := ObjectID.ofBytes []

/-- Errors of `encoding/hex` and of `ObjectIDFromHex`. -/
inductive HexError
  | ErrInvalidHex
  | InvalidByteError (b : Nat)
  | ErrLength
deriving DecidableEq, Repr

/-- Go `encoding/hex` `fromHexChar`: the value of one hexadecimal digit. -/
def fromHexChar (c : Nat) : Option Nat :=
  if 48 ≤ c ∧ c ≤ 57 then some (c - 48)
  else if 97 ≤ c ∧ c ≤ 102 then some (c - 97 + 10)
  else if 65 ≤ c ∧ c ≤ 70 then some (c - 65 + 10)
  else none

/-- Go `hex.Decode`: two digits per output byte, `(a << 4) | b`. -/
def hexDecode : List Nat → Except HexError (List Byte)
  | [] => .ok []
  | [p] =>
    match fromHexChar p with
    | none => .error (.InvalidByteError p)
    | some _ => .error .ErrLength
  | p :: q :: rest =>
    match fromHexChar p with
    | none => .error (.InvalidByteError p)
    | some a =>
      match fromHexChar q with
      | none => .error (.InvalidByteError q)
      | some b =>
        match hexDecode rest with
        | .error e => .error e
        | .ok out => .ok (Fin.ofNat ((a <<< 4) ||| b) :: out)

/-- Driver `primitive.ObjectIDFromHex`: the string must be 24 bytes long and
decode as hexadecimal. -/
def ObjectIDFromHex (s : String) : Except HexError ObjectID :=
  if (goBytes s).length ≠ 24 then .error .ErrInvalidHex
  else
    match hexDecode (goBytes s) with
    | .error e => .error e
    | .ok out => .ok (ObjectID.ofBytes out)

/-- Go `encoding/hex` digit table `"0123456789abcdef"`. -/
def hextable : List Char := "0123456789abcdef".data

/-- Go `hex.Encode` on one byte: `hextable[v>>4]`, `hextable[v&0x0f]`. -/
def hexEncodeByte (v : Byte) : List Char :=
  [hextable.getD (v.val >>> 4) '0', hextable.getD (v.val &&& 0x0f) '0']

/-- Driver `ObjectID.Hex`: the 24-digit lower-case rendering. -/
def ObjectID.Hex (id : ObjectID) : String :=
  String.mk (id.bytes.flatMap hexEncodeByte)

/-- State the driver's identifier generator reads: the clock, the five
random bytes drawn at process start and the process-wide counter. -/
structure IdGen where
  now : Nat
  processUnique : List Byte
  objectIDCounter : Nat
deriving DecidableEq

/-- Go `binary.BigEndian.PutUint32`. -/
def putUint32 (v : Nat) : List Byte :=
  [Fin.ofNat (v >>> 24), Fin.ofNat (v >>> 16), Fin.ofNat (v >>> 8), Fin.ofNat v]

/-- Driver `putUint24`: `byte(v >> 16)`, `byte(v >> 8)`, `byte(v)`. -/
def putUint24 (v : Nat) : List Byte :=
  [Fin.ofNat (v >>> 16), Fin.ofNat (v >>> 8), Fin.ofNat v]

/-- Driver `primitive.NewObjectID`: four bytes of Unix time, the five
process bytes, three bytes of the incremented counter.  Returns the new
identifier and the generator with its counter advanced. -/
def NewObjectID (g : IdGen) : ObjectID × IdGen :=
  let c := (g.objectIDCounter + 1) % 2 ^ 32
  (ObjectID.ofBytes
      (putUint32 (g.now % 2 ^ 32)
        ++ (g.processUnique ++ List.replicate 5 (0 : Byte)).take 5
        ++ putUint24 c),
    { g with objectIDCounter := c })

/-! ## Data model and collection -/

/-- Modelled from the spec: the declaration of `models.User` is not among the
sources.  The handlers only touch its `ID` field; the spec leaves the other
fields open (arbitrary user-defined fields), so they are a parameter `F`. -/
structure User (F : Type) where
  ID : ObjectID
  fields : F
deriving DecidableEq

/-- The two `encoding/json` calls of the handlers at type `models.User`:
`json.NewDecoder(r.Body).Decode(&u)` on a zero `User`, and `json.Marshal(u)`.
Their behaviour depends on the declaration of `models.User`, so they are
parameters of the handlers. -/
structure JSON (F : Type) where
  Decode : String → Except String (User F)
  Marshal : User F → Except String String

/-- Errors the driver reports for a collection operation. -/
inductive MongoError
  | ErrNoDocuments
  | DeadlineExceeded
  | DuplicateKey
  | Other (msg : String)
deriving DecidableEq, Repr

/-- Go `err.Error()`, as printed by `%v`. -/
def MongoError.Error : MongoError → String
  | .ErrNoDocuments => "mongo: no documents in result"
  | .DeadlineExceeded => "context deadline exceeded"
  | .DuplicateKey => "E11000 duplicate key error"
  | .Other msg => msg

/-- The documents of the `User` collection of database `Mongo_golang`. -/
structure Collection (F : Type) where
  docs : List (User F)
deriving DecidableEq

/-- The store keeps `_id` unique within a collection. -/
def Collection.WF {F : Type} (c : Collection F) : Prop :=
  (c.docs.map (fun d => d.ID)).Nodup

/-- Driver `DeleteResult`. -/
structure DeleteResult where
  DeletedCount : Nat
deriving DecidableEq

/-- Driver `FindOne` with the filter `_id = oid`, followed by `Decode(&u)`.
`fault` is the failure (timeout, connectivity, decoding) the call runs into,
if any. -/
def Collection.FindOne {F : Type} (c : Collection F) (fault : Option MongoError)
    (oid : ObjectID) : Except MongoError (User F) :=
  match fault with
  | some err => .error err
  | none =>
    match c.docs.find? (fun d => d.ID == oid) with
    | some u => .ok u
    | none => .error .ErrNoDocuments

/-- Driver `InsertOne(ctx, u)`: a failing call leaves the collection as it
is; an `_id` already present is a duplicate-key error. -/
def Collection.InsertOne {F : Type} (c : Collection F) (fault : Option MongoError)
    (u : User F) : Except MongoError (Collection F) :=
  match fault with
  | some err => .error err
  | none =>
    if c.docs.any (fun d => d.ID == u.ID) then .error .DuplicateKey
    else .ok ⟨c.docs ++ [u]⟩

/-- Driver `DeleteOne` with the filter `_id = oid`: removes the first matching
document and reports how many were removed. -/
def Collection.DeleteOne {F : Type} (c : Collection F) (fault : Option MongoError)
    (oid : ObjectID) : Except MongoError (DeleteResult × Collection F) :=
  match fault with
  | some err => .error err
  | none =>
    if c.docs.any (fun d => d.ID == oid) then
      .ok (⟨1⟩, ⟨c.docs.eraseP (fun d => d.ID == oid)⟩)
    else .ok (⟨0⟩, c)

/-! ## HTTP responses -/

/-- What a handler hands to its `http.ResponseWriter`. -/
structure Response where
  status : Nat
  header : List (String × String)
  body : String
deriving DecidableEq

abbrev http.StatusOK : Nat := 200
abbrev http.StatusCreated : Nat := 201
abbrev http.StatusBadRequest : Nat := 400
abbrev http.StatusNotFound : Nat := 404
abbrev http.StatusInternalServerError : Nat := 500

/-- Go `http.Error`: plain-text headers, the status code, the message and a
newline. -/
def http.Error (error : String) (code : Nat) : Response :=
  { status := code
    header := [("Content-Type", "text/plain; charset=utf-8"),
               ("X-Content-Type-Options", "nosniff")]
    body := error ++ "\n" }

/-- A database call as the collection sees it. -/
inductive DbCall (F : Type)
  | FindOne (oid : ObjectID)
  | InsertOne (u : User F)
  | DeleteOne (oid : ObjectID)
deriving DecidableEq

/-- What the surroundings contribute to one request: the failure the database
call runs into (if any), the failure of writing the response (if any), and the
identifier generator. -/
structure Env where
  dbFault : Option MongoError
  writeErr : Option String
  idgen : IdGen

/-- Result of running a handler: the response, the collection afterwards, the
database calls issued (in order) and the lines logged on the server. -/
structure Outcome (F : Type) where
  resp : Response
  users : Collection F
  calls : List (DbCall F)
  log : List String

/-- The trailing check of the write: a failed write is logged as
`Error writing response: %v` and changes nothing else. -/
def logWrite (writeErr : Option String) : List String :=
  match writeErr with
  | some err => ["Error writing response: " ++ err]
  | none => []

/-! ## The handlers of `controllers/user.go` -/

/-- Go struct `UserController`, whose one field is the users collection. -/
structure UserController (F : Type) where
  usersCollection : Collection F

/-- Handler `GetUser`, user.go lines 34-76. -/
def UserController.GetUser {F : Type} (uc : UserController F) (json : JSON F)
    (env : Env) (idStr : String) : Outcome F :=
  match ObjectIDFromHex idStr with
  | .error _ =>
    { resp := http.Error "Invalid user ID format" http.StatusBadRequest
      users := uc.usersCollection, calls := [], log := [] }
  | .ok oid =>
    match uc.usersCollection.FindOne env.dbFault oid with
    | .error err =>
      if err = MongoError.ErrNoDocuments then
        { resp := http.Error "User not found" http.StatusNotFound
          users := uc.usersCollection, calls := [.FindOne oid], log := [] }
      else
        { resp := http.Error "Internal server error" http.StatusInternalServerError
          users := uc.usersCollection, calls := [.FindOne oid]
          log := ["Error fetching user: " ++ err.Error] }
    | .ok u =>
      match json.Marshal u with
      | .error err =>
        { resp := http.Error "Internal server error" http.StatusInternalServerError
          users := uc.usersCollection, calls := [.FindOne oid]
          log := ["Error marshaling user to JSON: " ++ err] }
      | .ok uj =>
        { resp := { status := http.StatusOK
                    header := [("Content-Type", "application/json")]
                    body := uj }
          users := uc.usersCollection, calls := [.FindOne oid]
          log := logWrite env.writeErr }

/-- Handler `CreateUser`, user.go lines 79-118. -/
def UserController.CreateUser {F : Type} (uc : UserController F) (json : JSON F)
    (env : Env) (body : String) : Outcome F :=
  match json.Decode body with
  | .error _ =>
    { resp := http.Error "Invalid request body" http.StatusBadRequest
      users := uc.usersCollection, calls := [], log := [] }
  | .ok u0 =>
    let u : User F := { u0 with ID := (NewObjectID env.idgen).1 }
    match uc.usersCollection.InsertOne env.dbFault u with
    | .error err =>
      { resp := http.Error "Internal server error during user creation"
                  http.StatusInternalServerError
        users := uc.usersCollection, calls := [.InsertOne u]
        log := ["Error inserting user: " ++ err.Error] }
    | .ok users =>
      match json.Marshal u with
      | .error err =>
        { resp := http.Error "Internal server error" http.StatusInternalServerError
          users := users, calls := [.InsertOne u]
          log := ["Error marshaling new user to JSON: " ++ err] }
      | .ok uj =>
        { resp := { status := http.StatusCreated
                    header := [("Content-Type", "application/json")]
                    body := uj }
          users := users, calls := [.InsertOne u]
          log := logWrite env.writeErr }

/-- Handler `DeleteUser`, user.go lines 121-155. -/
def UserController.DeleteUser {F : Type} (uc : UserController F)
    (env : Env) (idStr : String) : Outcome F :=
  match ObjectIDFromHex idStr with
  | .error _ =>
    { resp := http.Error "Invalid user ID format" http.StatusBadRequest
      users := uc.usersCollection, calls := [], log := [] }
  | .ok oid =>
    match uc.usersCollection.DeleteOne env.dbFault oid with
    | .error err =>
      { resp := http.Error "Internal server error during user deletion"
                  http.StatusInternalServerError
        users := uc.usersCollection, calls := [.DeleteOne oid]
        log := ["Error deleting user: " ++ err.Error] }
    | .ok (res, users) =>
      if res.DeletedCount = 0 then
        { resp := http.Error "User not found" http.StatusNotFound
          users := users, calls := [.DeleteOne oid], log := [] }
      else
        { resp := { status := http.StatusOK
                    header := [("Content-Type", "text/plain")]
                    body := "Deleted User " ++ oid.Hex ++ "\n" }
          users := users, calls := [.DeleteOne oid]
          log := logWrite env.writeErr }

/-- Decoding the two digits `hex.Encode` writes for a byte, in front of any
further input, yields that byte in front of the decoding of the rest. -/
def decodesBack (v : Byte) : Bool :=
  match goBytes (String.mk (hexEncodeByte v)) with
  | [p, q] =>
    (match fromHexChar p, fromHexChar q with
     | some a, some b => decide ((Fin.ofNat ((a <<< 4) ||| b) : Byte) = v)
     | _, _ => false)
  | _ => false

/-! ## The bootstrap of `main.go` -/

/-- Go `error` values of the bootstrap; `wrap` is what `fmt.Errorf` with `%w`
builds. -/
inductive GoError
  | new (msg : String)
  | wrap (msg : String) (inner : GoError)
deriving DecidableEq

/-- Go `err.Error()`. -/
def GoError.Error : GoError → String
  | .new msg => msg
  | .wrap msg _ => msg

/-- Go `fmt.Errorf(format ++ ": %w", err)`. -/
def fmt.Errorf (pre : String) (err : GoError) : GoError :=
  .wrap (pre ++ ": " ++ err.Error) err

/-- The handle `mongo.Connect` returns. -/
structure Client where
  uri : String
deriving DecidableEq

/-- Observable steps of the bootstrap, in program order. -/
inductive Event
  | Connect
  | Ping
  | Disconnect
  | ListenAndServe
  | Println (s : String)
  | LogPrintf (s : String)
  | Exit (code : Nat)
deriving DecidableEq

/-- What the surroundings answer to the bootstrap: the results of
`mongo.Connect`, `client.Ping`, `client.Disconnect` and
`http.ListenAndServe` (`none` is Go `nil`). -/
structure Boot where
  connect : Option GoError
  ping : Option GoError
  disconnect : Option GoError
  serve : Option GoError

/-- Function `getMongoClient`, main.go lines 51-81: the value returned and the
steps taken. -/
def getMongoClient (env : Boot) : Except GoError Client × List Event :=
  match env.connect with
  | some err => (.error (fmt.Errorf "failed to connect to MongoDB" err), [.Connect])
  | none =>
    let client : Client := ⟨"mongodb://127.0.0.1:27017"⟩
    match env.ping with
    | some err =>
      (.error (fmt.Errorf "MongoDB server not reachable or responsive" err),
        [.Connect, .Ping, .LogPrintf ("MongoDB Ping failed: " ++ err.Error), .Disconnect]
          ++ (match env.disconnect with
              | some disconnectErr =>
                [.LogPrintf ("Error during disconnect after failed ping: "
                    ++ disconnectErr.Error)]
              | none => []))
    | none => (.ok client, [.Connect, .Ping, .Println "Database connected successfully!"])

/-- How the body of a Go function ends: by returning, or by `os.Exit`. -/
inductive Ending
  | Return
  | Exit (code : Nat)
deriving DecidableEq

/-- Go semantics of `defer`: the deferred calls run when the function
returns; `os.Exit` ends the program at once and deferred functions are not
run. -/
def finish (deferred : List Event) : Ending → List Event
  | .Return => deferred
  | .Exit code => [.Exit code]

/-- Go `log.Fatalf`: `Printf` followed by `os.Exit(1)`. -/
def log.Fatalf (deferred : List Event) (s : String) : List Event :=
  [.LogPrintf s] ++ finish deferred (.Exit 1)

/-- Function `main`, main.go lines 16-48: the steps taken until the process
ends. -/
def main (env : Boot) : List Event :=
  match getMongoClient env with
  | (.error err, steps) =>
    steps ++ log.Fatalf [] ("Failed to connect to MongoDB: " ++ err.Error)
  | (.ok _, steps) =>
    let deferred : List Event :=
      [.Disconnect]
        ++ (match env.disconnect with
            | some err => [.LogPrintf ("Error disconnecting from MongoDB: " ++ err.Error)]
            | none => [])
        ++ [.Println "Disconnected from MongoDB."]
    let body := steps ++ [.Println "Server is listening on port 9000...", .ListenAndServe]
    match env.serve with
    | some serverErr =>
      body ++ log.Fatalf deferred ("Server failed to start: " ++ serverErr.Error)
    | none => body ++ finish deferred .Return

/-- Number of times the handle is disconnected in a run. -/
def disconnects (steps : List Event) : Nat := steps.count Event.Disconnect

/-! ## Routing (`main.go` lines 38-40) and request classes -/

/-- The three routes: `GET /user/:id`, `POST /user` with a body,
`DELETE /user/:id`. -/
inductive Request
  | GET (id : String)
  | POST (body : String)
  | DELETE (id : String)
deriving DecidableEq

/-- HTTP method of a request. -/
inductive Method
  | GET
  | POST
  | DELETE
deriving DecidableEq

/-- Method under which a request is routed. -/
def Request.method : Request → Method
  | .GET _ => .GET
  | .POST _ => .POST
  | .DELETE _ => .DELETE

/-- Dispatch of the router to the handler registered for the route. -/
def route {F : Type} (uc : UserController F) (json : JSON F) (env : Env) :
    Request → Outcome F
  | .GET id => uc.GetUser json env id
  | .POST body => uc.CreateUser json env body
  | .DELETE id => uc.DeleteUser env id

/-- A request whose input fails validation: an id that does not parse as an
ObjectID, or a body that does not decode into a User. -/
def failsValidation {F : Type} (json : JSON F) : Request → Prop
  | .GET id => ∃ e, ObjectIDFromHex id = .error e
  | .POST body => ∃ e, json.Decode body = .error e
  | .DELETE id => ∃ e, ObjectIDFromHex id = .error e

/-- The database call of a request is reached and fails with a store error:
any error of `InsertOne` or `DeleteOne`, and any error of the fetch other
than `ErrNoDocuments`. -/
def storeFails {F : Type} (uc : UserController F) (json : JSON F) (env : Env) :
    Request → Prop
  | .GET id => ∃ oid err, ObjectIDFromHex id = .ok oid ∧
      uc.usersCollection.FindOne env.dbFault oid = .error err ∧
      err ≠ MongoError.ErrNoDocuments
  | .POST body => ∃ u err, json.Decode body = .ok u ∧
      uc.usersCollection.InsertOne env.dbFault
        { u with ID := (NewObjectID env.idgen).1 } = .error err
  | .DELETE id => ∃ oid err, ObjectIDFromHex id = .ok oid ∧
      uc.usersCollection.DeleteOne env.dbFault oid = .error err

/-! ## Concrete instances for evaluation -/

/-- The response a handler gives when its database call fails: a function of
the method alone. -/
def storeFailureResponse : Method → Response
  | .GET => http.Error "Internal server error" 500
  | .POST => http.Error "Internal server error during user creation" 500
  | .DELETE => http.Error "Internal server error during user deletion" 500

/-- A bootstrap in which connect and ping succeed and the HTTP server fails
to start. -/
def serverFails : Boot :=
  ⟨none, none, none, some (.new "listen tcp :9000: bind: address already in use")⟩

/-- A bootstrap in which connect succeeds, the ping times out and the
disconnect fails too. -/
def pingFails : Boot :=
  ⟨none, some (.new "context deadline exceeded"), some (.new "client is disconnected"), none⟩

/-- A bootstrap in which connect fails. -/
def connectFails : Boot :=
  ⟨some (.new "error parsing uri"), none, none, none⟩


/-- A toy JSON codec for users with one further field, the name: the body is
the name, and a body starting with `!` is malformed; a decoded record carries
the identifier `cid`, standing for the identifier field the client sent. -/
def toyJSON (cid : ObjectID) : JSON String where
  Decode := fun body =>
    match body.data with
    | '!' :: _ => .error "invalid character"
    | _ => .ok ⟨cid, body⟩
  Marshal := fun u => .ok ("id=" ++ u.ID.Hex ++ ";name=" ++ u.fields)

/-- An identifier whose twelve bytes all equal `b`. -/
def oidOf (b : Byte) : ObjectID := ObjectID.ofBytes (List.replicate 12 b)

/-- A request environment without failures. -/
def calm : Env := ⟨none, none, ⟨0, [], 0⟩⟩

/-- A collection holding one user, `Ada`, under the identifier `oidOf 1`. -/
def oneUser : UserController String := ⟨⟨[⟨oidOf 1, "Ada"⟩]⟩⟩

/-- The generator state of the running example: a clock value, five process
bytes and a counter. -/
def gen0 : IdGen := ⟨1730000000, [0xa1, 0xb2, 0xc3, 0xd4, 0xe5], 41⟩

/-- Request environment of the running example. -/
def env0 : Env := ⟨none, none, gen0⟩

/-- The identifier the generator issues in state `gen0`. -/
def oid0 : ObjectID :=
  ObjectID.ofBytes [0x67, 0x1d, 0xb4, 0x80, 0xa1, 0xb2, 0xc3, 0xd4, 0xe5, 0x00, 0x00, 0x2a]

/-- A collection holding two users, under `oidOf 0xab` and `oidOf 1`. -/
def twoUsers : UserController String := ⟨⟨[⟨oidOf 0xab, "Grace"⟩, ⟨oidOf 1, "Ada"⟩]⟩⟩

/-- A request environment whose database call fails with `err`. -/
def failing (err : MongoError) : Env := ⟨some err, none, gen0⟩

/-! ## Hexadecimal round trip -/

set_option maxRecDepth 100000 in
theorem decodesBack_all : ∀ v : Byte, decodesBack v = true := by decide

theorem goBytes_append (a b : List Char) :
    goBytes (String.mk (a ++ b)) = goBytes (String.mk a) ++ goBytes (String.mk b) := by
  simp [goBytes]

theorem hexDecode_encode_cons (v : Byte) (cs : List Char) :
    hexDecode (goBytes (String.mk (hexEncodeByte v ++ cs))) =
      match hexDecode (goBytes (String.mk cs)) with
      | .error e => .error e
      | .ok out => .ok (v :: out) := by
  have h := decodesBack_all v
  rw [goBytes_append]
  unfold decodesBack at h
  split at h
  · rename_i p q hpq
    rw [hpq]
    split at h
    · rename_i a b ha hb
      simp only [decide_eq_true_eq] at h
      simp [hexDecode, ha, hb, h]
    · exact absurd h (by simp)
  · exact absurd h (by simp)

theorem hexDecode_encode (l : List Byte) :
    hexDecode (goBytes (String.mk (l.flatMap hexEncodeByte))) = .ok l := by
  induction l with
  | nil => rfl
  | cons v l ih =>
    rw [List.flatMap_cons, hexDecode_encode_cons, ih]

theorem goBytes_encode_length (l : List Byte) :
    (goBytes (String.mk (l.flatMap hexEncodeByte))).length = 2 * l.length := by
  induction l with
  | nil => rfl
  | cons v l ih =>
    rw [List.flatMap_cons, goBytes_append, List.length_append, ih]
    have h := decodesBack_all v
    unfold decodesBack at h
    split at h
    · rename_i p q hpq
      rw [hpq]; simp; omega
    · exact absurd h (by simp)

theorem ObjectID.ofBytes_bytes (id : ObjectID) : ObjectID.ofBytes id.bytes = id := by
  cases id with
  | mk bytes h =>
    simp only [ObjectID.ofBytes, ObjectID.mk.injEq]
    rw [List.take_append_of_le_length (by omega), List.take_of_length_le (by omega)]

/-- Parsing the canonical rendering of an identifier gives the identifier back. -/
theorem ObjectIDFromHex_Hex (id : ObjectID) : ObjectIDFromHex id.Hex = .ok id := by
  unfold ObjectIDFromHex ObjectID.Hex
  rw [goBytes_encode_length, hexDecode_encode, id.size_eq]
  simp [ObjectID.ofBytes_bytes]


/-! ## Collection lemmas -/

theorem any_eq_false_of_absent {F : Type} (docs : List (User F)) (oid : ObjectID)
    (h : ∀ d ∈ docs, d.ID ≠ oid) : docs.any (fun d => d.ID == oid) = false := by
  simp only [List.any_eq_false, beq_iff_eq]
  exact h

theorem find_eq_none_of_absent {F : Type} (docs : List (User F)) (oid : ObjectID)
    (h : ∀ d ∈ docs, d.ID ≠ oid) : docs.find? (fun d => d.ID == oid) = none := by
  simp only [List.find?_eq_none, beq_iff_eq]
  exact h

theorem any_eq_true_of_present {F : Type} (docs : List (User F)) (oid : ObjectID)
    (h : ∃ d ∈ docs, d.ID = oid) : docs.any (fun d => d.ID == oid) = true := by
  simp only [List.any_eq_true, beq_iff_eq]
  exact h

theorem FindOne_absent {F : Type} (c : Collection F) (oid : ObjectID)
    (h : ∀ d ∈ c.docs, d.ID ≠ oid) : c.FindOne none oid = .error .ErrNoDocuments := by
  simp [Collection.FindOne, find_eq_none_of_absent c.docs oid h]

theorem DeleteOne_absent {F : Type} (c : Collection F) (oid : ObjectID)
    (h : ∀ d ∈ c.docs, d.ID ≠ oid) : c.DeleteOne none oid = .ok (⟨0⟩, c) := by
  simp [Collection.DeleteOne, any_eq_false_of_absent c.docs oid h]

theorem DeleteOne_present {F : Type} (c : Collection F) (oid : ObjectID)
    (h : ∃ d ∈ c.docs, d.ID = oid) :
    c.DeleteOne none oid = .ok (⟨1⟩, ⟨c.docs.eraseP (fun d => d.ID == oid)⟩) := by
  simp [Collection.DeleteOne, any_eq_true_of_present c.docs oid h]

/-! ## Validation failures -/

/-- C1: a request whose input fails validation (GetUser or DeleteUser with an
id that does not parse as an ObjectID, CreateUser with a body that does not
decode) is answered 400, and no database operation is issued: the list of
database calls is empty and the collection is the one before the request. -/
theorem invalid_request_400_no_db_call {F : Type} (uc : UserController F) (json : JSON F)
    (env : Env) (req : Request) (h : failsValidation json req) :
    (route uc json env req).resp.status = 400 ∧
    (route uc json env req).calls = [] ∧
    (route uc json env req).users = uc.usersCollection := by
  cases req with
  | GET id =>
    obtain ⟨e, he⟩ := h
    simp [route, UserController.GetUser, he, http.Error]
  | POST body =>
    obtain ⟨e, he⟩ := h
    simp [route, UserController.CreateUser, he, http.Error]
  | DELETE id =>
    obtain ⟨e, he⟩ := h
    simp [route, UserController.DeleteUser, he, http.Error]

/-! ## Absent records -/

/-- C2: for an id string that parses as an ObjectID matching no record of the
collection, and a store that answers without error, GetUser and DeleteUser
both respond 404. -/
theorem absent_record_404 {F : Type} (uc : UserController F) (json : JSON F)
    (env : Env) (idStr : String) (oid : ObjectID)
    (hid : ObjectIDFromHex idStr = .ok oid)
    (habsent : ∀ d ∈ uc.usersCollection.docs, d.ID ≠ oid)
    (hstore : env.dbFault = none) :
    (uc.GetUser json env idStr).resp.status = 404 ∧
    (uc.DeleteUser env idStr).resp.status = 404 := by
  constructor
  · simp [UserController.GetUser, hid, hstore, FindOne_absent _ oid habsent, http.Error]
  · simp [UserController.DeleteUser, hid, hstore, DeleteOne_absent _ oid habsent, http.Error]


theorem invalid_request_400_no_db_call_witness :
    (failsValidation (toyJSON NilObjectID) (.GET "not-an-id") ∧
      (route oneUser (toyJSON NilObjectID) calm (.GET "not-an-id")).resp.status = 400 ∧
      (route oneUser (toyJSON NilObjectID) calm (.GET "not-an-id")).calls = [] ∧
      (route oneUser (toyJSON NilObjectID) calm (.GET "not-an-id")).users
        = oneUser.usersCollection) ∧
    (failsValidation (toyJSON NilObjectID) (.POST "!Ada") ∧
      (route oneUser (toyJSON NilObjectID) calm (.POST "!Ada")).resp.status = 400 ∧
      (route oneUser (toyJSON NilObjectID) calm (.POST "!Ada")).calls = [] ∧
      (route oneUser (toyJSON NilObjectID) calm (.POST "!Ada")).users
        = oneUser.usersCollection) ∧
    (failsValidation (toyJSON NilObjectID) (.DELETE "0101010101010101010101zz") ∧
      (route oneUser (toyJSON NilObjectID) calm
        (.DELETE "0101010101010101010101zz")).resp.status = 400 ∧
      (route oneUser (toyJSON NilObjectID) calm
        (.DELETE "0101010101010101010101zz")).calls = [] ∧
      (route oneUser (toyJSON NilObjectID) calm
        (.DELETE "0101010101010101010101zz")).users = oneUser.usersCollection) :=
  ⟨⟨⟨HexError.ErrInvalidHex, by decide⟩,
      invalid_request_400_no_db_call oneUser (toyJSON NilObjectID) calm
        (.GET "not-an-id") ⟨HexError.ErrInvalidHex, by decide⟩⟩,
   ⟨⟨"invalid character", by decide⟩,
      invalid_request_400_no_db_call oneUser (toyJSON NilObjectID) calm
        (.POST "!Ada") ⟨"invalid character", by decide⟩⟩,
   ⟨⟨HexError.InvalidByteError 122, by decide⟩,
      invalid_request_400_no_db_call oneUser (toyJSON NilObjectID) calm
        (.DELETE "0101010101010101010101zz") ⟨HexError.InvalidByteError 122, by decide⟩⟩⟩

theorem absent_record_404_witness :
    ObjectIDFromHex "000000000000000000000000" = .ok NilObjectID ∧
    (∀ d ∈ oneUser.usersCollection.docs, d.ID ≠ NilObjectID) ∧
    calm.dbFault = none ∧
    (oneUser.GetUser (toyJSON NilObjectID) calm "000000000000000000000000").resp.status = 404 ∧
    (oneUser.DeleteUser calm "000000000000000000000000").resp.status = 404 :=
  ⟨by decide, by decide, rfl,
    absent_record_404 oneUser (toyJSON NilObjectID) calm "000000000000000000000000"
      NilObjectID (by decide) (by decide) rfl⟩


/-! ## Create, then fetch -/

theorem InsertOne_ok_iff {F : Type} (c : Collection F) (fault : Option MongoError)
    (u : User F) (users : Collection F) :
    c.InsertOne fault u = .ok users ↔
      fault = none ∧ (∀ d ∈ c.docs, d.ID ≠ u.ID) ∧ users = ⟨c.docs ++ [u]⟩ := by
  unfold Collection.InsertOne
  cases fault with
  | some err => simp
  | none =>
    by_cases h : c.docs.any (fun d => d.ID == u.ID) = true
    · simp only [h, if_true, reduceCtorEq, true_and, false_iff, not_and]
      intro habs
      rw [any_eq_false_of_absent c.docs u.ID habs] at h
      exact absurd h (by simp)
    · have hf : c.docs.any (fun d => d.ID == u.ID) = false := by simpa using h
      have habs : ∀ d ∈ c.docs, d.ID ≠ u.ID := by
        simpa only [List.any_eq_false, beq_iff_eq] using hf
      simp only [hf, Bool.false_eq_true, if_false, Except.ok.injEq, true_and]
      constructor
      · intro heq
        exact ⟨habs, heq.symm⟩
      · intro heq
        exact heq.2.symm

theorem FindOne_inserted {F : Type} (docs : List (User F)) (u : User F)
    (h : ∀ d ∈ docs, d.ID ≠ u.ID) :
    (Collection.mk (docs ++ [u])).FindOne none u.ID = .ok u := by
  simp [Collection.FindOne, List.find?_append, find_eq_none_of_absent docs u.ID h]

/-- C3: round trip.  For a body that decodes, a store in which the insert
succeeds and a record that marshals (so that the create responds 201 and
returns the record), a GetUser on the returned identifier, answered by the
store without error, responds 200 with the JSON content type and the very body
the create returned; the record the store finds under that identifier is the
record that was inserted. -/
theorem create_then_get_round_trip {F : Type} (uc : UserController F) (json : JSON F)
    (env env2 : Env) (body : String) (u : User F) (users : Collection F) (uj : String)
    (hbody : json.Decode body = .ok u)
    (hinsert : uc.usersCollection.InsertOne env.dbFault
      { u with ID := (NewObjectID env.idgen).1 } = .ok users)
    (hjson : json.Marshal { u with ID := (NewObjectID env.idgen).1 } = .ok uj)
    (hstore : env2.dbFault = none) :
    (uc.CreateUser json env body).resp.status = 201 ∧
    (uc.CreateUser json env body).resp.body = uj ∧
    (uc.CreateUser json env body).calls
      = [.InsertOne { u with ID := (NewObjectID env.idgen).1 }] ∧
    (uc.CreateUser json env body).users.FindOne env2.dbFault (NewObjectID env.idgen).1
      = .ok { u with ID := (NewObjectID env.idgen).1 } ∧
    (UserController.GetUser ⟨(uc.CreateUser json env body).users⟩ json env2
      (NewObjectID env.idgen).1.Hex).resp
      = { status := 200, header := [("Content-Type", "application/json")],
          body := (uc.CreateUser json env body).resp.body } := by
  have hcreate : (uc.CreateUser json env body).resp.status = 201 ∧
      (uc.CreateUser json env body).resp.body = uj ∧
      (uc.CreateUser json env body).calls
        = [.InsertOne { u with ID := (NewObjectID env.idgen).1 }] ∧
      (uc.CreateUser json env body).users = users := by
    simp [UserController.CreateUser, hbody, hinsert, hjson]
  obtain ⟨h1, h2, h3, h4⟩ := hcreate
  obtain ⟨_, habs, husers⟩ := (InsertOne_ok_iff _ _ _ _).1 hinsert
  have hfind : users.FindOne env2.dbFault (NewObjectID env.idgen).1
      = .ok { u with ID := (NewObjectID env.idgen).1 } := by
    rw [husers, hstore]
    exact FindOne_inserted _ { u with ID := (NewObjectID env.idgen).1 } habs
  refine ⟨h1, h2, h3, ?_, ?_⟩
  · rw [h4]; exact hfind
  · rw [h2, h4]
    simp [UserController.GetUser, ObjectIDFromHex_Hex, hfind, hjson]


theorem create_then_get_round_trip_witness :
    (toyJSON NilObjectID).Decode "Ada" = .ok ⟨NilObjectID, "Ada"⟩ ∧
    oneUser.usersCollection.InsertOne env0.dbFault ⟨(NewObjectID env0.idgen).1, "Ada"⟩
      = .ok ⟨[⟨oidOf 1, "Ada"⟩, ⟨oid0, "Ada"⟩]⟩ ∧
    (toyJSON NilObjectID).Marshal ⟨(NewObjectID env0.idgen).1, "Ada"⟩
      = .ok "id=671db480a1b2c3d4e500002a;name=Ada" ∧
    calm.dbFault = none ∧
    (UserController.GetUser
        ⟨(oneUser.CreateUser (toyJSON NilObjectID) env0 "Ada").users⟩
        (toyJSON NilObjectID) calm (NewObjectID env0.idgen).1.Hex).resp
      = { status := 200, header := [("Content-Type", "application/json")],
          body := (oneUser.CreateUser (toyJSON NilObjectID) env0 "Ada").resp.body } :=
  ⟨by decide, by decide, by decide, rfl,
    (create_then_get_round_trip oneUser (toyJSON NilObjectID) env0 calm "Ada"
      ⟨NilObjectID, "Ada"⟩ ⟨[⟨oidOf 1, "Ada"⟩, ⟨oid0, "Ada"⟩]⟩
      "id=671db480a1b2c3d4e500002a;name=Ada"
      (by decide) (by decide) (by decide) rfl).2.2.2.2⟩

/-! ## The identifier of a created record -/

/-- C4 as stated fails: a client that sends, as its identifier, the very value
the generator issues next (here `671db480a1b2c3d4e500002a` in generator state
`gen0`) gets a 201 whose inserted and returned record carry an identifier
equal to the client-supplied one. -/
theorem created_id_can_equal_client_id :
    (toyJSON oid0).Decode "Ada" = .ok ⟨oid0, "Ada"⟩ ∧
    (UserController.CreateUser ⟨⟨[]⟩⟩ (toyJSON oid0) env0 "Ada").resp.status = 201 ∧
    (UserController.CreateUser ⟨⟨[]⟩⟩ (toyJSON oid0) env0 "Ada").calls
      = [.InsertOne ⟨oid0, "Ada"⟩] ∧
    (UserController.CreateUser ⟨⟨[]⟩⟩ (toyJSON oid0) env0 "Ada").resp.body
      = "id=671db480a1b2c3d4e500002a;name=Ada" ∧
    ¬ (∀ (uc : UserController String) (json : JSON String) (env : Env) (body : String)
        (u inserted : User String),
        json.Decode body = .ok u →
        (uc.CreateUser json env body).resp.status = 201 →
        (uc.CreateUser json env body).calls = [.InsertOne inserted] →
        inserted.ID ≠ u.ID) := by
  refine ⟨by decide, by decide, by decide, by decide, ?_⟩
  intro h
  exact h ⟨⟨[]⟩⟩ (toyJSON oid0) env0 "Ada" ⟨oid0, "Ada"⟩ ⟨oid0, "Ada"⟩
    (by decide) (by decide) (by decide) rfl

/-- C4, amended: for a body that decodes, whatever identifier it carries, a
CreateUser that responds 201 has inserted the decoded record with its
identifier overwritten by the generated one, has returned the JSON of that
same record, and the collection is the old one followed by that record.  The
client-supplied identifier is discarded: a body that decodes to the same
fields under any other identifier has the same outcome. -/
theorem create_overwrites_client_id {F : Type} (uc : UserController F) (json : JSON F)
    (env : Env) (body : String) (u : User F)
    (hbody : json.Decode body = .ok u)
    (hcreated : (uc.CreateUser json env body).resp.status = 201) :
    (uc.CreateUser json env body).calls
      = [.InsertOne ⟨(NewObjectID env.idgen).1, u.fields⟩] ∧
    json.Marshal ⟨(NewObjectID env.idgen).1, u.fields⟩
      = .ok (uc.CreateUser json env body).resp.body ∧
    (uc.CreateUser json env body).users.docs
      = uc.usersCollection.docs ++ [⟨(NewObjectID env.idgen).1, u.fields⟩] ∧
    (∀ (body2 : String) (u2 : User F), json.Decode body2 = .ok u2 →
      u2.fields = u.fields →
      uc.CreateUser json env body2 = uc.CreateUser json env body) := by
  have hind : ∀ (body2 : String) (u2 : User F), json.Decode body2 = .ok u2 →
      u2.fields = u.fields →
      uc.CreateUser json env body2 = uc.CreateUser json env body := by
    intro body2 u2 h2 hf
    simp only [UserController.CreateUser, hbody, h2, hf]
  refine ⟨?_, ?_, ?_, hind⟩
  all_goals
    revert hcreated
    simp only [UserController.CreateUser, hbody]
    cases hins : uc.usersCollection.InsertOne env.dbFault
        { ID := (NewObjectID env.idgen).1, fields := u.fields } with
    | error err => simp [http.Error]
    | ok users =>
      cases hmar : json.Marshal { ID := (NewObjectID env.idgen).1, fields := u.fields } with
      | error err => simp [http.Error]
      | ok uj =>
        have := (InsertOne_ok_iff _ _ _ _).1 hins
        simp [this.2.2]

theorem create_overwrites_client_id_witness :
    (toyJSON (oidOf 7)).Decode "Ada" = .ok ⟨oidOf 7, "Ada"⟩ ∧
    (oneUser.CreateUser (toyJSON (oidOf 7)) env0 "Ada").resp.status = 201 ∧
    (oneUser.CreateUser (toyJSON (oidOf 7)) env0 "Ada").calls
      = [.InsertOne ⟨(NewObjectID env0.idgen).1, "Ada"⟩] ∧
    (toyJSON (oidOf 7)).Marshal ⟨(NewObjectID env0.idgen).1, "Ada"⟩
      = .ok (oneUser.CreateUser (toyJSON (oidOf 7)) env0 "Ada").resp.body ∧
    (oneUser.CreateUser (toyJSON (oidOf 7)) env0 "Ada").users.docs
      = oneUser.usersCollection.docs ++ [⟨(NewObjectID env0.idgen).1, "Ada"⟩] :=
  have h := create_overwrites_client_id oneUser (toyJSON (oidOf 7)) env0 "Ada"
    ⟨oidOf 7, "Ada"⟩ (by decide) (by decide)
  ⟨by decide, by decide, h.1, h.2.1, h.2.2.1⟩


/-! ## Delete -/

theorem eraseP_eq_filter_of_nodup {F : Type} (docs : List (User F)) (oid : ObjectID)
    (hwf : (docs.map (fun d => d.ID)).Nodup) :
    docs.eraseP (fun d => d.ID == oid) = docs.filter (fun d => decide (d.ID ≠ oid)) := by
  induction docs with
  | nil => rfl
  | cons d docs ih =>
    rw [List.map_cons, List.nodup_cons] at hwf
    by_cases hd : d.ID = oid
    · have hrest : ∀ x ∈ docs, x.ID ≠ oid := by
        intro x hx hxo
        exact hwf.1 (List.mem_map.2 ⟨x, hx, by rw [hxo, hd]⟩)
      have hfilter : docs.filter (fun d => !decide (d.ID = oid)) = docs := by
        rw [List.filter_eq_self]
        intro x hx
        simpa using hrest x hx
      simp [List.eraseP_cons, hd, hfilter]
    · simp [List.eraseP_cons, hd, ih hwf.2]

theorem DeleteOne_WF {F : Type} (c : Collection F) (fault : Option MongoError)
    (oid : ObjectID) (res : DeleteResult) (users : Collection F) (hwf : c.WF)
    (h : c.DeleteOne fault oid = .ok (res, users)) : users.WF := by
  unfold Collection.DeleteOne at h
  cases fault with
  | some err => simp at h
  | none =>
    by_cases hany : c.docs.any (fun d => d.ID == oid) = true
    · simp only [hany, if_true, Except.ok.injEq, Prod.mk.injEq] at h
      rw [← h.2]
      exact List.Nodup.sublist ((List.eraseP_sublist _).map _) hwf
    · have hf : c.docs.any (fun d => d.ID == oid) = false := by simpa using hany
      simp only [hf, Bool.false_eq_true, if_false, Except.ok.injEq, Prod.mk.injEq] at h
      rw [← h.2]
      exact hwf

theorem InsertOne_WF {F : Type} (c : Collection F) (fault : Option MongoError)
    (u : User F) (users : Collection F) (hwf : c.WF)
    (h : c.InsertOne fault u = .ok users) : users.WF := by
  obtain ⟨_, habs, husers⟩ := (InsertOne_ok_iff _ _ _ _).1 h
  rw [husers]
  unfold Collection.WF at hwf ⊢
  rw [List.map_append, List.nodup_append]
  refine ⟨hwf, by simp, ?_⟩
  intro a ha hb
  simp only [List.map_cons, List.map_nil, List.mem_singleton] at hb
  obtain ⟨d, hd, hda⟩ := List.mem_map.1 ha
  exact habs d hd (by rw [hda, hb])

/-- C5: delete is not idempotent.  For an id string that parses to the
identifier of a record present in the collection, and a store that answers
both calls without error, the first DeleteUser responds 200 and a second
DeleteUser for the same id, run on the collection the first one left,
responds 404. -/
theorem delete_twice_200_then_404 {F : Type} (uc : UserController F) (env env2 : Env)
    (idStr : String) (oid : ObjectID)
    (hwf : uc.usersCollection.WF)
    (hid : ObjectIDFromHex idStr = .ok oid)
    (hpresent : ∃ d ∈ uc.usersCollection.docs, d.ID = oid)
    (hstore : env.dbFault = none) (hstore2 : env2.dbFault = none) :
    (uc.DeleteUser env idStr).resp.status = 200 ∧
    (UserController.DeleteUser ⟨(uc.DeleteUser env idStr).users⟩ env2 idStr).resp.status
      = 404 := by
  have hfirst : (uc.DeleteUser env idStr).resp.status = 200 ∧
      (uc.DeleteUser env idStr).users
        = ⟨uc.usersCollection.docs.eraseP (fun d => d.ID == oid)⟩ := by
    simp [UserController.DeleteUser, hid, hstore, DeleteOne_present _ oid hpresent]
  refine ⟨hfirst.1, ?_⟩
  rw [hfirst.2]
  have habsent : ∀ d ∈ uc.usersCollection.docs.eraseP (fun d => d.ID == oid),
      d.ID ≠ oid := by
    rw [eraseP_eq_filter_of_nodup _ oid hwf]
    intro d hd
    simpa using (List.mem_filter.1 hd).2
  simp [UserController.DeleteUser, hid, hstore2, DeleteOne_absent ⟨_⟩ oid habsent,
    http.Error]

theorem delete_twice_200_then_404_witness :
    oneUser.usersCollection.WF ∧
    ObjectIDFromHex "010101010101010101010101" = .ok (oidOf 1) ∧
    (∃ d ∈ oneUser.usersCollection.docs, d.ID = oidOf 1) ∧
    calm.dbFault = none ∧ env0.dbFault = none ∧
    (oneUser.DeleteUser calm "010101010101010101010101").resp.status = 200 ∧
    (UserController.DeleteUser
      ⟨(oneUser.DeleteUser calm "010101010101010101010101").users⟩ env0
      "010101010101010101010101").resp.status = 404 :=
  ⟨by unfold Collection.WF; decide, by decide, ⟨⟨oidOf 1, "Ada"⟩, by decide, by decide⟩,
    rfl, rfl,
    delete_twice_200_then_404 oneUser calm env0 "010101010101010101010101" (oidOf 1)
      (by unfold Collection.WF; decide) (by decide)
      ⟨⟨oidOf 1, "Ada"⟩, by decide, by decide⟩ rfl rfl⟩

theorem length_flatMap_hexEncodeByte (l : List Byte) :
    (l.flatMap hexEncodeByte).length = 2 * l.length := by
  induction l with
  | nil => rfl
  | cons v l ih =>
    rw [List.flatMap_cons, List.length_append, ih]
    simp [hexEncodeByte]
    omega

theorem ObjectID.Hex_length (id : ObjectID) : id.Hex.length = 24 := by
  unfold ObjectID.Hex
  rw [String.length_mk, length_flatMap_hexEncodeByte, id.size_eq]

/-- C6: for an id string that parses to an identifier matching a record of the
collection, a DeleteUser the store answers without error responds 200 with
Content-Type text/plain and the body `Deleted User `, the identifier in its
canonical form, newline.  The canonical form is the 24-character rendering of
the parsed identifier (it parses back to it), not the string the client
sent. -/
theorem delete_success_response {F : Type} (uc : UserController F) (env : Env)
    (idStr : String) (oid : ObjectID)
    (hid : ObjectIDFromHex idStr = .ok oid)
    (hpresent : ∃ d ∈ uc.usersCollection.docs, d.ID = oid)
    (hstore : env.dbFault = none) :
    (uc.DeleteUser env idStr).resp
      = { status := 200, header := [("Content-Type", "text/plain")],
          body := "Deleted User " ++ oid.Hex ++ "\n" } ∧
    oid.Hex.length = 24 ∧
    ObjectIDFromHex oid.Hex = .ok oid := by
  refine ⟨?_, oid.Hex_length, ObjectIDFromHex_Hex oid⟩
  simp [UserController.DeleteUser, hid, hstore, DeleteOne_present _ oid hpresent]


theorem delete_success_response_witness :
    ObjectIDFromHex "ABABABABABABABABABABABAB" = .ok (oidOf 0xab) ∧
    (∃ d ∈ twoUsers.usersCollection.docs, d.ID = oidOf 0xab) ∧
    calm.dbFault = none ∧
    (twoUsers.DeleteUser calm "ABABABABABABABABABABABAB").resp
      = { status := 200, header := [("Content-Type", "text/plain")],
          body := "Deleted User abababababababababababab\n" } :=
  ⟨by decide, ⟨⟨oidOf 0xab, "Grace"⟩, by decide, by decide⟩, rfl,
    (delete_success_response twoUsers calm "ABABABABABABABABABABABAB" (oidOf 0xab)
      (by decide) ⟨⟨oidOf 0xab, "Grace"⟩, by decide, by decide⟩ rfl).1.trans (by decide)⟩

/-! ## Store failures -/

/-- C7: no detail leakage on store failure.  Whenever the database call of
GetUser, CreateUser or DeleteUser fails with a store error (for the fetch: any
error other than `ErrNoDocuments`), the response is the 500 response fixed for
that handler.  Hence two failing requests to the same handler get the same
status, headers and body, whatever the two errors, collections, ids or bodies
are. -/
theorem store_failure_response_generic {F : Type} (uc uc2 : UserController F)
    (json : JSON F) (env env2 : Env) (req req2 : Request)
    (hfail : storeFails uc json env req)
    (hfail2 : storeFails uc2 json env2 req2)
    (hsame : req.method = req2.method) :
    (route uc json env req).resp.status = 500 ∧
    (route uc json env req).resp = storeFailureResponse req.method ∧
    (route uc json env req).resp = (route uc2 json env2 req2).resp := by
  have key : ∀ (c : UserController F) (e : Env) (r : Request), storeFails c json e r →
      (route c json e r).resp = storeFailureResponse r.method := by
    intro c e r h
    cases r with
    | GET id =>
      obtain ⟨oid, err, hid, hfind, hne⟩ := h
      simp [route, UserController.GetUser, hid, hfind, hne, storeFailureResponse,
        Request.method]
    | POST body =>
      obtain ⟨u, err, hbody, hins⟩ := h
      simp [route, UserController.CreateUser, hbody, hins, storeFailureResponse,
        Request.method]
    | DELETE id =>
      obtain ⟨oid, err, hid, hdel⟩ := h
      simp [route, UserController.DeleteUser, hid, hdel, storeFailureResponse,
        Request.method]
  have h1 := key uc env req hfail
  have h2 := key uc2 env2 req2 hfail2
  refine ⟨?_, h1, ?_⟩
  · rw [h1]
    cases req <;> rfl
  · rw [h1, h2, hsame]

theorem store_failure_response_generic_witness :
    storeFails oneUser (toyJSON NilObjectID) (failing .DeadlineExceeded)
      (.GET "010101010101010101010101") ∧
    storeFails twoUsers (toyJSON NilObjectID)
      (failing (.Other "connection refused: 127.0.0.1:27017"))
      (.GET "000000000000000000000000") ∧
    (Request.GET "010101010101010101010101").method
      = (Request.GET "000000000000000000000000").method ∧
    (route oneUser (toyJSON NilObjectID) (failing .DeadlineExceeded)
      (.GET "010101010101010101010101")).resp.status = 500 ∧
    (route oneUser (toyJSON NilObjectID) (failing .DeadlineExceeded)
      (.GET "010101010101010101010101")).resp
      = (route twoUsers (toyJSON NilObjectID)
          (failing (.Other "connection refused: 127.0.0.1:27017"))
          (.GET "000000000000000000000000")).resp :=
  have h1 : storeFails oneUser (toyJSON NilObjectID) (failing .DeadlineExceeded)
      (.GET "010101010101010101010101") :=
    ⟨oidOf 1, .DeadlineExceeded, by decide, by decide, by decide⟩
  have h2 : storeFails twoUsers (toyJSON NilObjectID)
      (failing (.Other "connection refused: 127.0.0.1:27017"))
      (.GET "000000000000000000000000") :=
    ⟨NilObjectID, .Other "connection refused: 127.0.0.1:27017",
      by decide, by decide, by decide⟩
  have h := store_failure_response_generic oneUser twoUsers (toyJSON NilObjectID)
    (failing .DeadlineExceeded) (failing (.Other "connection refused: 127.0.0.1:27017"))
    (.GET "010101010101010101010101") (.GET "000000000000000000000000") h1 h2 rfl
  ⟨h1, h2, rfl, h.1, h.2.2⟩

/-! ## Frame -/

/-- C10: frame of the handlers over the collection.  GetUser leaves the
collection as it is for every input.  A DeleteUser that responds 400 or 404
leaves it as it is.  A DeleteUser that responds 200 for the parsed identifier
`oid`, on a collection with unique identifiers, had a record with that
identifier, and afterwards the collection consists of exactly the records with
a different identifier, each unchanged and in the same order: one record
fewer, none with identifier `oid`. -/
theorem handlers_frame {F : Type} (uc : UserController F) (json : JSON F) (env : Env)
    (idStr : String) :
    (uc.GetUser json env idStr).users = uc.usersCollection ∧
    ((uc.DeleteUser env idStr).resp.status = 400 ∨
        (uc.DeleteUser env idStr).resp.status = 404 →
      (uc.DeleteUser env idStr).users = uc.usersCollection) ∧
    (∀ oid, uc.usersCollection.WF → ObjectIDFromHex idStr = .ok oid →
      (uc.DeleteUser env idStr).resp.status = 200 →
      (∃ d ∈ uc.usersCollection.docs, d.ID = oid) ∧
      (uc.DeleteUser env idStr).users.docs
        = uc.usersCollection.docs.filter (fun d => decide (d.ID ≠ oid)) ∧
      (uc.DeleteUser env idStr).users.docs.length + 1
        = uc.usersCollection.docs.length ∧
      (∀ d ∈ (uc.DeleteUser env idStr).users.docs, d.ID ≠ oid)) := by
  refine ⟨?_, ?_, ?_⟩
  · unfold UserController.GetUser
    split
    · rfl
    · split
      · split <;> rfl
      · split <;> rfl
  · unfold UserController.DeleteUser Collection.DeleteOne
    split
    · intro _; rfl
    · rename_i oid _
      cases env.dbFault with
      | some err => intro _; rfl
      | none =>
        by_cases hany : uc.usersCollection.docs.any (fun d => d.ID == oid) = true
        · simp [hany]
        · simp [hany]
  · intro oid hwf hid
    unfold UserController.DeleteUser Collection.DeleteOne
    rw [hid]
    cases env.dbFault with
    | some err => simp [http.Error]
    | none =>
      by_cases hany : uc.usersCollection.docs.any (fun d => d.ID == oid) = true
      · intro _
        have hex : ∃ d ∈ uc.usersCollection.docs, d.ID = oid := by
          simpa only [List.any_eq_true, beq_iff_eq] using hany
        have hfil := eraseP_eq_filter_of_nodup uc.usersCollection.docs oid hwf
        obtain ⟨d, hd, hdo⟩ := hex
        have hlen := List.length_eraseP_of_mem (p := fun d => d.ID == oid) hd
          (by simpa using hdo)
        have hpos : 0 < uc.usersCollection.docs.length := List.length_pos_of_mem hd
        simp only [hany, if_true]
        refine ⟨⟨d, hd, hdo⟩, hfil, by simp only [one_ne_zero, if_false]; omega, ?_⟩
        simp only [one_ne_zero, if_false]
        rw [hfil]
        intro x hx
        simpa using (List.mem_filter.1 hx).2
      · have hf : uc.usersCollection.docs.any (fun d => d.ID == oid) = false := by
          simpa using hany
        simp [hf, http.Error]


theorem handlers_frame_witness :
    twoUsers.usersCollection.WF ∧
    ObjectIDFromHex "ABABABABABABABABABABABAB" = .ok (oidOf 0xab) ∧
    (twoUsers.DeleteUser calm "ABABABABABABABABABABABAB").resp.status = 200 ∧
    (twoUsers.DeleteUser calm "ABABABABABABABABABABABAB").users.docs
      = twoUsers.usersCollection.docs.filter (fun d => decide (d.ID ≠ oidOf 0xab)) ∧
    (twoUsers.DeleteUser calm "ABABABABABABABABABABABAB").users.docs = [⟨oidOf 1, "Ada"⟩] ∧
    ((oneUser.DeleteUser calm "000000000000000000000000").resp.status = 400 ∨
      (oneUser.DeleteUser calm "000000000000000000000000").resp.status = 404) ∧
    (oneUser.DeleteUser calm "000000000000000000000000").users = oneUser.usersCollection :=
  have hwf : twoUsers.usersCollection.WF := by unfold Collection.WF; decide
  have h200 : (twoUsers.DeleteUser calm "ABABABABABABABABABABABAB").resp.status = 200 := by
    decide
  have h404 : (oneUser.DeleteUser calm "000000000000000000000000").resp.status = 400 ∨
      (oneUser.DeleteUser calm "000000000000000000000000").resp.status = 404 :=
    Or.inr (by decide)
  have hdel := (handlers_frame twoUsers (toyJSON NilObjectID) calm
    "ABABABABABABABABABABABAB").2.2 (oidOf 0xab) hwf (by decide) h200
  ⟨hwf, by decide, h200, hdel.2.1, hdel.2.1.trans (by decide), h404,
    (handlers_frame oneUser (toyJSON NilObjectID) calm
      "000000000000000000000000").2.1 h404⟩

/-! ## Bootstrap -/

/-- C9: `getMongoClient` returns a handle exactly when connect and ping both
succeed.  If connect fails it returns the wrapped connect error, and neither
pings nor disconnects.  If connect succeeds and the ping fails it disconnects
exactly once and returns the wrapped ping error, the same one whatever the
disconnect answers. -/
theorem getMongoClient_contract (env : Boot) :
    ((∃ client, (getMongoClient env).1 = .ok client) ↔
      env.connect = none ∧ env.ping = none) ∧
    (∀ err, env.connect = some err →
      (getMongoClient env).1 = .error (fmt.Errorf "failed to connect to MongoDB" err) ∧
      Event.Ping ∉ (getMongoClient env).2 ∧
      disconnects (getMongoClient env).2 = 0) ∧
    (∀ err, env.connect = none → env.ping = some err →
      disconnects (getMongoClient env).2 = 1 ∧
      ∀ d, (getMongoClient { env with disconnect := d }).1
        = .error (fmt.Errorf "MongoDB server not reachable or responsive" err)) := by
  obtain ⟨connect, ping, disconnect, serve⟩ := env
  refine ⟨?_, ?_, ?_⟩
  · cases connect <;> cases ping <;> simp [getMongoClient]
  · intro err h
    simp only at h
    subst h
    simp [getMongoClient, disconnects]
  · intro err hc hp
    simp only at hc hp
    subst hc hp
    constructor
    · cases disconnect <;> simp [getMongoClient, disconnects]
    · intro d
      simp [getMongoClient]

theorem getMongoClient_contract_witness :
    (connectFails.connect = some (.new "error parsing uri") ∧
      (getMongoClient connectFails).1
        = .error (fmt.Errorf "failed to connect to MongoDB" (.new "error parsing uri")) ∧
      Event.Ping ∉ (getMongoClient connectFails).2 ∧
      disconnects (getMongoClient connectFails).2 = 0) ∧
    (pingFails.connect = none ∧ pingFails.ping = some (.new "context deadline exceeded") ∧
      disconnects (getMongoClient pingFails).2 = 1 ∧
      (getMongoClient { pingFails with disconnect := none }).1
        = .error (fmt.Errorf "MongoDB server not reachable or responsive"
            (.new "context deadline exceeded"))) :=
  ⟨⟨rfl, (getMongoClient_contract connectFails).2.1 _ rfl⟩,
    ⟨rfl, rfl, ((getMongoClient_contract pingFails).2.2 _ rfl rfl).1,
      ((getMongoClient_contract pingFails).2.2 _ rfl rfl).2 none⟩⟩

/-- C8, the failing run: connect and ping succeed, so `getMongoClient` hands
a live handle to `main`; the HTTP server then fails to start and `main` ends
through `log.Fatalf`.  The handle is never disconnected: the run ends with
exit code 1 and the deferred disconnect does not run. -/
theorem main_fatal_skips_disconnect :
    (∃ client, (getMongoClient serverFails).1 = .ok client) ∧
    disconnects (main serverFails) = 0 ∧
    main serverFails =
      [.Connect, .Ping, .Println "Database connected successfully!",
       .Println "Server is listening on port 9000...", .ListenAndServe,
       .LogPrintf "Server failed to start: listen tcp :9000: bind: address already in use",
       .Exit 1] := by
  refine ⟨⟨⟨"mongodb://127.0.0.1:27017"⟩, rfl⟩, by decide, by decide⟩

/-- Whenever `main` got a live handle and the server call returns an error,
the handle is not disconnected; the deferred disconnect runs (once) only on
the path where the server call returns no error and `main` returns. -/
theorem main_disconnects (env : Boot) (hconnect : env.connect = none)
    (hping : env.ping = none) :
    disconnects (main env) = if env.serve = none then 1 else 0 := by
  obtain ⟨connect, ping, disconnect, serve⟩ := env
  simp only at hconnect hping
  subst hconnect hping
  cases serve <;> cases disconnect <;>
    simp [main, getMongoClient, finish, log.Fatalf, disconnects]

end GoCRD
